import Mathlib

/-
Verification development for the gobson BSON encoder (src/encode.go, src/gobson.go).

Modelling conventions:
- Go byte slices and strings are modelled as `List Nat`; every byte written by an
  arithmetic writer carries an explicit `% 256`.  Byte-typed source fields
  (Raw.Kind, Binary.Kind, ObjectId contents) are Nat values understood to be
  below 256; the theorems only instantiate them with such values.
- Go's `reflect.Value` tree is modelled by the inductive `BVal`.  A value whose
  dynamic type implements the `Getter` interface is `vgetter g`, where `g` is the
  result of its `GetBSON()`.  A pointer is `vptr inner` with `vptr vnull` standing
  for a nil pointer (`Elem()` of a nil pointer is the invalid value `vnull`).
  A struct field of interface type holding `x` is `viface x`, with `viface vnull`
  for a nil interface.
- The stateful `encoder` of the source appends to a single buffer; since every
  operation only appends, the byte segment produced by each call is modelled
  compositionally.  `reserveInt32`/`setInt32` back-patching of a document is the
  function `wrapDoc`: the patched value `len(e.out)-start` is 4 (the reserved
  prefix) + body + 1 (terminator).
- Panics that `handleErr` converts to an error return from `Marshal`, and runtime
  panics (e.g. calling `Interface()` on an invalid value), are both modelled as
  `Except.error`; the claims under study only distinguish fatal failure from
  produced bytes.
-/

/-- Little-endian 4-byte encoding, as produced by `encoder.addInt32`/`setInt32`:
byte(v), byte(v>>8), byte(v>>16), byte(v>>24).  Taking four base-256 digits
implicitly truncates to the low 32 bits, exactly as the int32 conversion does. -/
def le32 (n : Nat) : List Nat :=
  [n % 256, n / 256 % 256, n / 65536 % 256, n / 16777216 % 256]

/-- Little-endian 8-byte encoding, as produced by `encoder.addInt64`. -/
def le64 (n : Nat) : List Nat :=
  [n % 256, n / 256 % 256, n / 65536 % 256, n / 16777216 % 256,
   n / 4294967296 % 256, n / 1099511627776 % 256,
   n / 281474976710656 % 256, n / 72057594037927936 % 256]

/-- Big-endian 4-byte encoding, as produced by `binary.BigEndian.PutUint32`. -/
def beBytes4 (n : Nat) : List Nat :=
  [n / 16777216 % 256, n / 65536 % 256, n / 256 % 256, n % 256]

/-- The unsigned 32-bit pattern of a Go integer: `uint32(v)` / `int32(v)`
truncation keeps the low 32 bits of the two's-complement representation. -/
def toU32 (v : Int) : Nat := (v % 4294967296).toNat

/-- The unsigned 64-bit pattern of a Go int64: `uint64(v)`. -/
def toU64 (v : Int) : Nat := (v % 18446744073709551616).toNat

/-- Truncated (toward zero) integer division, as Go's `/` on int64. -/
def goDiv (a b : Int) : Int := Int.tdiv a b

/-- Read the first four bytes of a buffer as a little-endian unsigned 32-bit
value (0 if the buffer is shorter). -/
def readU32 : List Nat → Nat
  | b0 :: b1 :: b2 :: b3 :: _ => b0 + 256 * b1 + 65536 * b2 + 16777216 * b3
  | _ => 0

/-- Reinterpret an unsigned 32-bit value as a signed int32. -/
def asInt32 (u : Nat) : Int :=
  if u < 2147483648 then (u : Int) else (u : Int) - 4294967296

/-- Read the first four bytes of a buffer as a little-endian signed int32. -/
def readInt32LE (l : List Nat) : Int := asInt32 (readU32 l)

/-- Read the first four bytes of a buffer as a big-endian unsigned 32-bit value,
as `binary.BigEndian.Uint32` does. -/
def beRead4 : List Nat → Nat
  | b0 :: b1 :: b2 :: b3 :: _ => 16777216 * b0 + 65536 * b1 + 256 * b2 + b3
  | _ => 0

/-- Decimal digits of a natural number, recursing on a fuel bound: each step
divides by ten, so a fuel of n + 1 always suffices. -/
def itoaCore : Nat → Nat → List Nat
  | 0, _ => []
  | fuel + 1, n => if n < 10 then [48 + n] else itoaCore fuel (n / 10) ++ [48 + n % 10]

/-- Decimal representation of a natural number, as `strconv.Itoa` (the
`itoaCache` of the source is a transparent memoisation of the same function). -/
def itoa (n : Nat) : List Nat := itoaCore (n + 1) n

/-- Kinds of the signed integer family, mirroring `reflect.Int .. reflect.Int64`. -/
inductive IntKind where
  | i | i8 | i16 | i32 | i64

/-- The numeric value of the reflect.Kind constant: Int=2, Int8=3, Int16=4,
Int32=5, Int64=6.  The source compares kinds with `<=` on these numbers. -/
def IntKind.reflectNum : IntKind → Nat
  | .i => 2
  | .i8 => 3
  | .i16 => 4
  | .i32 => 5
  | .i64 => 6

/-- Kinds of the unsigned integer family, mirroring `reflect.Uint .. reflect.Uintptr`. -/
inductive UIntKind where
  | u | u8 | u16 | u32 | u64 | uptr

/-- Uint=7, Uint8=8, Uint16=9, Uint32=10, Uint64=11, Uintptr=12. -/
def UIntKind.reflectNum : UIntKind → Nat
  | .u => 7
  | .u8 => 8
  | .u16 => 9
  | .u32 => 10
  | .u64 => 11
  | .uptr => 12

/-- The declared type of a signed-integer value: either a plain integer type of
some kind, or one of the three named int64 types the encoder special-cases
(`Timestamp`, `MongoTimestamp`, `orderKey`). -/
inductive IntType where
  | plain (k : IntKind)
  | timestamp
  | mongoTimestamp
  | orderKey

/-- The reflect.Kind number of the declared type; the three named types are
declared over int64. -/
def IntType.reflectNum : IntType → Nat
  | .plain k => k.reflectNum
  | _ => 6

/-- A Go value as seen by the encoder's reflection walk.
`vstruct` carries the declaration-order field list of the struct, each field as
(field name, package path of the field (empty for exported fields), field tag,
field value) - exactly the inputs `getStructFields` and `addStruct` consume. -/
inductive BVal where
  | vnull
  | vbool (b : Bool)
  | vint (t : IntType) (v : Int)
  | vuint (k : UIntKind) (u : Nat)
  | vfloat (bits : Nat)
  | vstr (s : List Nat)
  | vobjectId (s : List Nat)
  | vsymbol (s : List Nat)
  | vbinary (sub : Nat) (data : List Nat)
  | vregex (pat : List Nat) (opts : List Nat)
  | vjs (code : List Nat) (scope : Option BVal)
  | vraw (kind : Nat) (data : List Nat)
  | vundefined
  | vbytes (data : List Nat)
  | vmap (entries : List (List Nat × BVal))
  | vdocSlice (entries : List (List Nat × BVal))
  | vslice (elems : List BVal)
  | varray (elems : List BVal)
  | varrayBytes (data : List Nat)
  | vstruct (fields : List (List Nat × List Nat × List Nat × BVal))
  | vptr (inner : BVal)
  | viface (inner : BVal)
  | vgetter (inner : BVal)

/-- A struct field as carried by `BVal.vstruct`. -/
abbrev StructFieldV := List Nat × List Nat × List Nat × BVal

/-- The value component of a struct field. -/
def fieldVal (f : StructFieldV) : BVal := f.2.2.2

/-- The cached per-field information derived by `getStructFields`. -/
structure FieldInfo where
  Key : List Nat
  Num : Nat
  Conditional : Bool
  Short : Bool

/-- Split a tag at its last slash, as `strings.LastIndex(field.Tag, "/")`:
returns (tag[:s], tag[s+1:]) when a slash (byte 47) occurs, none otherwise. -/
def splitLastSlash : List Nat → Option (List Nat × List Nat)
  | [] => none
  | c :: rest =>
    match splitLastSlash rest with
    | some (pre, post) => some (c :: pre, post)
    | none => if c = 47 then some ([], rest) else none

/-- Process the flag characters after the last slash of a tag: 'c' (99) sets
Conditional, 's' (115) sets Short, anything else is the
"Unsupported field flag" panic. -/
def applyFlags : List Nat → FieldInfo → Except String FieldInfo
  | [], info => .ok info
  | c :: rest, info =>
    if c = 99 then applyFlags rest { info with Conditional := true }
    else if c = 115 then applyFlags rest { info with Short := true }
    else .error "Unsupported field flag"

/-- ASCII lowercasing of a field name.  The source uses `strings.ToLower`; the
two agree on ASCII names, and every name in this development is ASCII. -/
def toLowerAscii (s : List Nat) : List Nat :=
  s.map (fun c => if 65 ≤ c ∧ c ≤ 90 then c + 32 else c)

/-- The derivation loop of `getStructFields`: walk the declaration-order field
metadata (name, package path, tag) with the declaration index `i`, skipping
private fields (non-empty package path), parsing the tag's flag suffix,
defaulting the key to the lowercased name, and failing on a duplicated key.
The produced list is compacted: it holds one entry per exported field, in
declaration order, as `fieldsList[:len(fieldsMap)]` does. -/
def buildFieldList : Nat → List (List Nat) → List (List Nat × List Nat × List Nat) →
    Except String (List FieldInfo)
  | _, _, [] => .ok []
  | i, seen, (name, pkgPath, tag) :: rest =>
    if pkgPath ≠ [] then buildFieldList (i + 1) seen rest
    else
      let base : FieldInfo := { Key := [], Num := i, Conditional := false, Short := false }
      let parsed : Except String (FieldInfo × List Nat) :=
        match splitLastSlash tag with
        | some (pre, post) =>
          match applyFlags post base with
          | .ok info => .ok (info, pre)
          | .error e => .error e
        | none => .ok (base, tag)
      match parsed with
      | .error e => .error e
      | .ok (info, strippedTag) =>
        let key := if strippedTag ≠ [] then strippedTag else toLowerAscii name
        if seen.contains key then .error "Duplicated key in struct"
        else
          match buildFieldList (i + 1) (key :: seen) rest with
          | .error e => .error e
          | .ok infos => .ok ({ info with Key := key } :: infos)

/-- getStructFields, on the (name, package path, tag) triples of a struct type's
declaration-order fields.  The `fieldMap` cache of the source memoises this pure
derivation and does not change its result. -/
def getStructFields (metas : List (List Nat × List Nat × List Nat)) :
    Except String (List FieldInfo) :=
  buildFieldList 0 [] metas

/-- isZero from src/encode.go, switching on the reflect kind of the value.
String-kind covers ObjectId and Symbol as well; pointer and interface test
IsNil; slice and map test emptiness; all integer kinds test the numeric value;
bool tests the value; every other kind (notably float, struct, array and the
invalid value) falls through to false.  A `vgetter` stands for a value of some
Getter-implementing type whose underlying kind the model does not track; such
carriers in this development are of kinds that take the default branch. -/
def isZero : BVal → Bool
  | .vstr s => s.length = 0
  | .vobjectId s => s.length = 0
  | .vsymbol s => s.length = 0
  | .vptr .vnull => true
  | .vptr _ => false
  | .viface .vnull => true
  | .viface _ => false
  | .vbytes d => d.length = 0
  | .vdocSlice l => l.length = 0
  | .vslice l => l.length = 0
  | .vmap l => l.length = 0
  | .vint _ v => v = 0
  | .vuint _ u => u = 0
  | .vbool b => !b
  | _ => false

/-- addElemName: the element kind byte, the name bytes, and a terminating 0. -/
def elemName (kind : Nat) (name : List Nat) : List Nat :=
  kind :: name ++ [0]

/-- addStr: int32(len+1) length prefix, the bytes, and a terminating 0. -/
def encStr (s : List Nat) : List Nat :=
  le32 (s.length + 1) ++ s ++ [0]

/-- addBinary: subtype 0x02 uses the legacy double-length form
int32(len+4), subtype, int32(len), bytes; every other subtype uses
int32(len), subtype, bytes. -/
def addBinary (subtype : Nat) (v : List Nat) : List Nat :=
  if subtype = 2 then le32 (v.length + 4) ++ [subtype] ++ le32 v.length ++ v
  else le32 v.length ++ [subtype] ++ v

/-- The reserveInt32 / elements / terminator / setInt32 pattern of addDoc:
the back-patched int32 is `len(e.out) - start` = 4 + |body| + 1. -/
def wrapDoc (body : List Nat) : List Nat :=
  le32 (body.length + 5) ++ body ++ [0]

/-- The uint branch of addElem: a value with the int64 sign bit set is the
"BSON has no uint64 type" panic; a value fitting int32 whose declared kind is
at most Uint32, or carrying the short flag, becomes kind 0x10; anything else
kind 0x12. -/
def encUintElem (name : List Nat) (k : UIntKind) (u : Nat) (short : Bool) :
    Except String (List Nat) :=
  if 9223372036854775808 ≤ u then
    .error "BSON has no uint64 type, and value is too large to fit correctly in an int64"
  else if u ≤ 2147483647 ∧ (short ∨ k.reflectNum ≤ 10) then
    .ok (elemName 16 name ++ le32 u)
  else
    .ok (elemName 18 name ++ le64 u)

/-- The generic loop of addSlice applied to a byte slice: each element is a
uint8 value, emitted under its stringified index. -/
def encByteElems (i : Nat) : List Nat → Except String (List Nat)
  | [] => .ok []
  | b :: rest =>
    match encUintElem (itoa i) UIntKind.u8 b false with
    | .error e => .error e
    | .ok eb =>
      match encByteElems (i + 1) rest with
      | .error e => .error e
      | .ok bs => .ok (eb ++ bs)

/-- Field keys of the library's own struct types, as derived by getStructFields
when one of them reaches addStruct: lowercased field names. -/
def kindKey : List Nat := [107, 105, 110, 100]

/-- "data". -/
def dataKey : List Nat := [100, 97, 116, 97]

/-- "pattern". -/
def patternKey : List Nat := [112, 97, 116, 116, 101, 114, 110]

/-- "options". -/
def optionsKey : List Nat := [111, 112, 116, 105, 111, 110, 115]

/-- "code". -/
def codeKey : List Nat := [99, 111, 100, 101]

/-- "scope". -/
def scopeKey : List Nat := [115, 99, 111, 112, 101]

mutual

/-- encoder.addDoc.  The leading loop replaces Getter values by their GetBSON
result and unwraps pointers; a Raw value of kind 0x00/0x03 is spliced verbatim
and any other Raw kind panics; then the kind switch accepts maps, structs and
slices/arrays (each wrapped with the length prefix and terminator) and panics on
everything else.  The struct branch also covers the library's own struct types
Binary, RegEx, JS and undefined, whose addStruct emission (via their derived
field schemas kind/data, pattern/options, code/scope) is written out here
directly; addDoc on an invalid value panics at `v.Interface()` (a runtime
error), modelled as an error as well. -/
def encDoc : BVal → Except String (List Nat)
  | .vgetter g => encDoc g
  | .vptr p => encDoc p
  | .viface (.vgetter g) => encDoc (.vgetter g)
  | .vraw kind d =>
    if kind = 3 ∨ kind = 0 then .ok d
    else .error "Attempted to unmarshal Raw kind as a document"
  | .vmap entries =>
    match encPairs entries with
    | .ok body => .ok (wrapDoc body)
    | .error e => .error e
  | .vstruct fields =>
    match getStructFields (fields.map (fun f => (f.1, f.2.1, f.2.2.1))) with
    | .error e => .error e
    | .ok infos =>
      match encFieldsAux infos fields with
      | .ok body => .ok (wrapDoc body)
      | .error e => .error e
  | .vdocSlice entries =>
    match encPairs entries with
    | .ok body => .ok (wrapDoc body)
    | .error e => .error e
  | .vslice elems =>
    match encIdx 0 elems with
    | .ok body => .ok (wrapDoc body)
    | .error e => .error e
  | .vbytes data =>
    match encByteElems 0 data with
    | .ok body => .ok (wrapDoc body)
    | .error e => .error e
  | .varray elems =>
    match encIdx 0 elems with
    | .ok body => .ok (wrapDoc body)
    | .error e => .error e
  | .varrayBytes data =>
    match encByteElems 0 data with
    | .ok body => .ok (wrapDoc body)
    | .error e => .error e
  | .vbinary sub data =>
    match encUintElem kindKey UIntKind.u8 sub false with
    | .error e => .error e
    | .ok kindElem => .ok (wrapDoc (kindElem ++ elemName 5 dataKey ++ addBinary 0 data))
  | .vregex pat opts =>
    .ok (wrapDoc (elemName 2 patternKey ++ encStr pat ++ elemName 2 optionsKey ++ encStr opts))
  | .vjs code scope =>
    match scope with
    | none => .ok (wrapDoc (elemName 2 codeKey ++ encStr code ++ elemName 10 scopeKey))
    | some s =>
      match encElem scopeKey s false with
      | .error e => .error e
      | .ok scopeElem => .ok (wrapDoc (elemName 2 codeKey ++ encStr code ++ scopeElem))
  | .vundefined => .ok (wrapDoc [])
  | _ => .error "Can't marshal value as a BSON document"

/-- encoder.addMap / the D branch of addSlice: one element per (key, value)
pair, in iteration order, with the short flag off. -/
def encPairs : List (List Nat × BVal) → Except String (List Nat)
  | [] => .ok []
  | (k, v) :: rest =>
    match encElem k v false with
    | .error e => .error e
    | .ok b =>
      match encPairs rest with
      | .error e => .error e
      | .ok bs => .ok (b ++ bs)

/-- The generic loop of addSlice: one element per entry, keyed by the
stringified index. -/
def encIdx : Nat → List BVal → Except String (List Nat)
  | _, [] => .ok []
  | i, v :: rest =>
    match encElem (itoa i) v false with
    | .error e => .error e
    | .ok b =>
      match encIdx (i + 1) rest with
      | .error e => .error e
      | .ok bs => .ok (b ++ bs)

/-- The loop of encoder.addStruct: for the i-th entry of the derived field list
it reads `v.Field(i)` - the i-th declaration-order field value, which is why the
value list is walked in parallel with the info list - skips the field when it
is conditional and zero, and otherwise emits it under its key with its short
flag.  An info list longer than the field list would be the out-of-range panic
of `v.Field` (unreachable from getStructFields, which never produces more
entries than there are fields). -/
def encFieldsAux : List FieldInfo → List StructFieldV → Except String (List Nat)
  | [], _ => .ok []
  | _ :: _, [] => .error "reflect: Field index out of range"
  | info :: infos, (_, _, _, v) :: fs =>
    if info.Conditional ∧ isZero v then encFieldsAux infos fs
    else
      match encElem info.Key v info.Short with
      | .error e => .error e
      | .ok b =>
        match encFieldsAux infos fs with
        | .error e => .error e
        | .ok bs => .ok (b ++ bs)

/-- encoder.addElem.  An invalid value is a null element; a Getter is replaced
by its GetBSON result; interface and pointer values recurse on their element;
the remaining cases follow the kind switch of the source.  Where the source
reaches a document via addDoc (map, D-slice, other slice/array, plain struct),
the getter/pointer/Raw preamble of addDoc cannot fire on those constructors
(Getter-implementing values are `vgetter`, Raw values are `vraw`), so the
document body is emitted directly; the bridge lemmas following the definition
restate these cases as compositions with `encDoc`. -/
def encElem (name : List Nat) : BVal → Bool → Except String (List Nat)
  | .vnull, _ => .ok (elemName 10 name)
  | .vgetter g, short => encElem name g short
  | .viface inner, short => encElem name inner short
  | .vptr inner, short => encElem name inner short
  | .vobjectId s, _ =>
    if s.length = 12 then .ok (elemName 7 name ++ s)
    else .error "ObjectIDs must be exactly 12 bytes long"
  | .vsymbol s, _ => .ok (elemName 14 name ++ encStr s)
  | .vstr s, _ => .ok (elemName 2 name ++ encStr s)
  | .vfloat bits, _ => .ok (elemName 1 name ++ le64 bits)
  | .vuint k u, short => encUintElem name k u short
  | .vint t v, short =>
    if t.reflectNum ≤ 5 then .ok (elemName 16 name ++ le32 (toU32 v))
    else
      match t with
      | .timestamp => .ok (elemName 9 name ++ le64 (toU64 (goDiv v 1000000)))
      | .mongoTimestamp => .ok (elemName 17 name ++ le64 (toU64 v))
      | .orderKey =>
        if v = 9223372036854775807 then .ok (elemName 127 name)
        else .ok (elemName 255 name)
      | .plain _ =>
        if short ∧ -2147483648 ≤ v ∧ v ≤ 2147483647 then
          .ok (elemName 16 name ++ le32 (toU32 v))
        else
          .ok (elemName 18 name ++ le64 (toU64 v))
  | .vbool b, _ => .ok (elemName 8 name ++ [if b then 1 else 0])
  | .vmap entries, _ =>
    match encPairs entries with
    | .ok body => .ok (elemName 3 name ++ wrapDoc body)
    | .error e => .error e
  | .vbytes data, _ => .ok (elemName 5 name ++ addBinary 0 data)
  | .vdocSlice entries, _ =>
    match encPairs entries with
    | .ok body => .ok (elemName 3 name ++ wrapDoc body)
    | .error e => .error e
  | .vslice elems, _ =>
    match encIdx 0 elems with
    | .ok body => .ok (elemName 4 name ++ wrapDoc body)
    | .error e => .error e
  | .varrayBytes data, _ => .ok (elemName 5 name ++ addBinary 0 data)
  | .varray elems, _ =>
    match encIdx 0 elems with
    | .ok body => .ok (elemName 4 name ++ wrapDoc body)
    | .error e => .error e
  | .vraw kind d, _ => .ok (elemName (if kind = 0 then 3 else kind) name ++ d)
  | .vbinary sub data, _ => .ok (elemName 5 name ++ addBinary sub data)
  | .vregex pat opts, _ => .ok (elemName 11 name ++ pat ++ [0] ++ opts ++ [0])
  | .vjs code none, _ => .ok (elemName 13 name ++ encStr code)
  | .vjs code (some scope), _ =>
    match encDoc scope with
    | .error e => .error e
    | .ok d =>
      .ok (elemName 15 name ++ le32 (4 + (encStr code).length + d.length) ++ encStr code ++ d)
  | .vstruct fields, _ =>
    match getStructFields (fields.map (fun f => (f.1, f.2.1, f.2.2.1))) with
    | .error e => .error e
    | .ok infos =>
      match encFieldsAux infos fields with
      | .ok body => .ok (elemName 3 name ++ wrapDoc body)
      | .error e => .error e
  | .vundefined, _ => .ok (elemName 6 name)

end

/-- Marshal: run the encoder on the document value; handleErr converts the
string panics of the encoder into the error return. -/
def marshal (v : BVal) : Except String (List Nat) := encDoc v

/-- NewObjectIdSeconds: a 12-byte id whose first four bytes are uint32(sec)
big-endian and whose remaining eight bytes are zero. -/
def newObjectIdSeconds (sec : Int) : List Nat :=
  beBytes4 (toU32 sec) ++ [0, 0, 0, 0, 0, 0, 0, 0]

/-- NewObjectId, with the process-global inputs made explicit: the current
unix seconds, the 3-byte machine id (always three bytes in the source, built
by initMachineId), the process id, and the `objectIdCounter` state; returns the
id together with the updated counter.  `atomic.AddUint32(&objectIdCounter, 1)`
increments modulo 2^32 and yields the incremented value. -/
def newObjectId (nowSec : Nat) (machineId : List Nat) (pid : Nat) (counter : Nat) :
    List Nat × Nat :=
  let i := (counter + 1) % 4294967296
  (beBytes4 (nowSec % 4294967296) ++
    [machineId.getD 0 0, machineId.getD 1 0, machineId.getD 2 0] ++
    [pid / 256 % 256, pid % 256] ++
    [i / 65536 % 256, i / 256 % 256, i % 256], i)

/-- ObjectId.Timestamp: byteSlice(0,4) panics unless the id is 12 bytes;
otherwise the first four bytes read as a big-endian uint32, cast to int32. -/
def timestampOf (id : List Nat) : Except String Int :=
  if id.length = 12 then .ok (asInt32 (beRead4 id)) else .error "Invalid ObjectId"

/-- ObjectId.Counter: byteSlice(9,12) panics unless the id is 12 bytes;
otherwise int32(uint32(b[0])<<16 | uint32(b[1])<<8 | uint32(b[2])), which for
byte values below 256 (all bytes this development constructs) is the base-256
recombination written here. -/
def counterOf (id : List Nat) : Except String Int :=
  if id.length = 12 then
    .ok ((65536 * id.getD 9 0 + 256 * id.getD 10 0 + id.getD 11 0 : Nat) : Int)
  else .error "Invalid ObjectId"

mutual

/-- True when the value contains no Raw pass-through anywhere: no element of
the tree is spliced verbatim by the encoder. -/
def rawFree : BVal → Bool
  | .vraw _ _ => false
  | .vgetter g => rawFree g
  | .vptr p => rawFree p
  | .viface i => rawFree i
  | .vjs _ none => true
  | .vjs _ (some s) => rawFree s
  | .vmap entries => rawFreePairs entries
  | .vdocSlice entries => rawFreePairs entries
  | .vslice elems => rawFreeList elems
  | .varray elems => rawFreeList elems
  | .vstruct fields => rawFreeFields fields
  | _ => true

/-- rawFree over (key, value) lists. -/
def rawFreePairs : List (List Nat × BVal) → Bool
  | [] => true
  | (_, v) :: rest => rawFree v && rawFreePairs rest

/-- rawFree over value lists. -/
def rawFreeList : List BVal → Bool
  | [] => true
  | v :: rest => rawFree v && rawFreeList rest

/-- rawFree over struct field lists. -/
def rawFreeFields : List StructFieldV → Bool
  | [] => true
  | (_, _, _, v) :: rest => rawFree v && rawFreeFields rest

end

/-- The set of top-level values addDoc accepts: after Getter replacement and
pointer unwrapping, a map, a struct (including the library's own struct types
Binary, RegEx, JS and undefined), any slice or array, or a Raw of kind
0x03/0x00. -/
def docKindOK : BVal → Bool
  | .vgetter g => docKindOK g
  | .vptr p => docKindOK p
  | .viface (.vgetter g) => docKindOK (.vgetter g)
  | .vraw kind _ => kind = 3 ∨ kind = 0
  | .vmap _ => true
  | .vstruct _ => true
  | .vdocSlice _ => true
  | .vslice _ => true
  | .vbytes _ => true
  | .varray _ => true
  | .varrayBytes _ => true
  | .vbinary _ _ => true
  | .vregex _ _ => true
  | .vjs _ _ => true
  | .vundefined => true
  | _ => false

/-- Whether an encoder run produced bytes (true) or a fatal error (false). -/
def isOkE : Except String (List Nat) → Bool
  | .ok _ => true
  | .error _ => false

/-- Sequence a list of element encodings, concatenating the produced byte
segments; the first error wins, as in the sequential encoder loop. -/
def encConcat : List (Except String (List Nat)) → Except String (List Nat)
  | [] => .ok []
  | r :: rest =>
    match r with
    | .error e => .error e
    | .ok b =>
      match encConcat rest with
      | .error e => .error e
      | .ok bs => .ok (b ++ bs)

/-- Bridge lemma: the map element case of addElem is addElemName followed by
addDoc of the same value. -/
theorem encElem_vmap_addDoc (name : List Nat) (entries : List (List Nat × BVal)) (short : Bool) :
    encElem name (.vmap entries) short =
      match encDoc (.vmap entries) with
      | .ok d => .ok (elemName 3 name ++ d)
      | .error e => .error e := by
  cases h : encPairs entries <;> simp [encElem, encDoc, h]

/-- Bridge lemma: the plain struct element case of addElem is addElemName
followed by addDoc of the same value. -/
theorem encElem_vstruct_addDoc (name : List Nat) (fields : List StructFieldV) (short : Bool) :
    encElem name (.vstruct fields) short =
      match encDoc (.vstruct fields) with
      | .ok d => .ok (elemName 3 name ++ d)
      | .error e => .error e := by
  cases h : getStructFields (fields.map (fun f => (f.1, f.2.1, f.2.2.1))) with
  | error e => simp [encElem, encDoc, h]
  | ok infos => cases h2 : encFieldsAux infos fields <;> simp [encElem, encDoc, h, h2]

/-- Bridge lemma: the generic slice element case of addElem is addElemName
followed by addDoc of the same value. -/
theorem encElem_vslice_addDoc (name : List Nat) (elems : List BVal) (short : Bool) :
    encElem name (.vslice elems) short =
      match encDoc (.vslice elems) with
      | .ok d => .ok (elemName 4 name ++ d)
      | .error e => .error e := by
  cases h : encIdx 0 elems <;> simp [encElem, encDoc, h]


/-- A list ending in a zero terminator has last element zero. -/
theorem getLast_append_zero (l : List Nat) : (l ++ [0]).getLast? = some 0 := by
  simp

/-- The total length of a wrapped document: 4 prefix bytes, the body, and the
terminator. -/
theorem wrapDoc_length (body : List Nat) : (wrapDoc body).length = body.length + 5 := by
  simp [wrapDoc, le32]

/-- The back-patched length prefix of a wrapped document reads back as the
patched value modulo 2^32. -/
theorem readU32_wrapDoc (body : List Nat) :
    readU32 (wrapDoc body) = (body.length + 5) % 4294967296 := by
  simp [wrapDoc, le32, readU32]; omega

/-- Every wrapped document ends in the 0x00 terminator. -/
theorem wrapDoc_getLast (body : List Nat) : (wrapDoc body).getLast? = some 0 := by
  rw [wrapDoc]
  exact getLast_append_zero _

/-- The length/terminator invariant holds of every wrapped document. -/
theorem wrapDoc_shape (body : List Nat) :
    readU32 (wrapDoc body) = (wrapDoc body).length % 4294967296 ∧
    ((wrapDoc body).length < 2147483648 →
      readInt32LE (wrapDoc body) = ((wrapDoc body).length : Int)) ∧
    (wrapDoc body).getLast? = some 0 := by
  refine ⟨?_, ?_, wrapDoc_getLast body⟩
  · rw [readU32_wrapDoc, wrapDoc_length]
  · intro hlt
    rw [wrapDoc_length] at hlt ⊢
    rw [readInt32LE, readU32_wrapDoc, asInt32]
    rw [Nat.mod_eq_of_lt (by omega)]
    rw [if_pos (by omega)]

/-- Every successful addDoc run on a Raw-free value produces a wrapped
document: length prefix, element bytes, terminator. -/
theorem encDocShape : (v : BVal) → (bytes : List Nat) → rawFree v = true →
    encDoc v = Except.ok bytes → ∃ body, bytes = wrapDoc body
  | .vgetter g, bytes, hr, he =>
    encDocShape g bytes (by simpa [rawFree] using hr) (by simpa [encDoc] using he)
  | .vptr p, bytes, hr, he =>
    encDocShape p bytes (by simpa [rawFree] using hr) (by simpa [encDoc] using he)
  | .viface (.vgetter g), bytes, hr, he =>
    encDocShape (.vgetter g) bytes (by simpa [rawFree] using hr) (by simpa [encDoc] using he)
  | .viface .vnull, _, _, he => by simp [encDoc] at he
  | .viface (.vbool b), _, _, he => by simp [encDoc] at he
  | .viface (.vint t v), _, _, he => by simp [encDoc] at he
  | .viface (.vuint k u), _, _, he => by simp [encDoc] at he
  | .viface (.vfloat bits), _, _, he => by simp [encDoc] at he
  | .viface (.vstr s), _, _, he => by simp [encDoc] at he
  | .viface (.vobjectId s), _, _, he => by simp [encDoc] at he
  | .viface (.vsymbol s), _, _, he => by simp [encDoc] at he
  | .viface (.vbinary sub d), _, _, he => by simp [encDoc] at he
  | .viface (.vregex p o), _, _, he => by simp [encDoc] at he
  | .viface (.vjs c sc), _, _, he => by simp [encDoc] at he
  | .viface (.vraw k d), _, _, he => by simp [encDoc] at he
  | .viface .vundefined, _, _, he => by simp [encDoc] at he
  | .viface (.vbytes d), _, _, he => by simp [encDoc] at he
  | .viface (.vmap entries), _, _, he => by simp [encDoc] at he
  | .viface (.vdocSlice entries), _, _, he => by simp [encDoc] at he
  | .viface (.vslice elems), _, _, he => by simp [encDoc] at he
  | .viface (.varray elems), _, _, he => by simp [encDoc] at he
  | .viface (.varrayBytes d), _, _, he => by simp [encDoc] at he
  | .viface (.vstruct fields), _, _, he => by simp [encDoc] at he
  | .viface (.vptr p), _, _, he => by simp [encDoc] at he
  | .viface (.viface i), _, _, he => by simp [encDoc] at he
  | .vnull, _, _, he => by simp [encDoc] at he
  | .vbool b, _, _, he => by simp [encDoc] at he
  | .vint t v, _, _, he => by simp [encDoc] at he
  | .vuint k u, _, _, he => by simp [encDoc] at he
  | .vfloat bits, _, _, he => by simp [encDoc] at he
  | .vstr s, _, _, he => by simp [encDoc] at he
  | .vobjectId s, _, _, he => by simp [encDoc] at he
  | .vsymbol s, _, _, he => by simp [encDoc] at he
  | .vraw k d, _, hr, _ => by simp [rawFree] at hr
  | .vmap entries, bytes, _, he => by
    cases h : encPairs entries with
    | error e => simp [encDoc, h] at he
    | ok body => simp [encDoc, h] at he; exact ⟨body, he.symm⟩
  | .vdocSlice entries, bytes, _, he => by
    cases h : encPairs entries with
    | error e => simp [encDoc, h] at he
    | ok body => simp [encDoc, h] at he; exact ⟨body, he.symm⟩
  | .vslice elems, bytes, _, he => by
    cases h : encIdx 0 elems with
    | error e => simp [encDoc, h] at he
    | ok body => simp [encDoc, h] at he; exact ⟨body, he.symm⟩
  | .varray elems, bytes, _, he => by
    cases h : encIdx 0 elems with
    | error e => simp [encDoc, h] at he
    | ok body => simp [encDoc, h] at he; exact ⟨body, he.symm⟩
  | .vbytes data, bytes, _, he => by
    cases h : encByteElems 0 data with
    | error e => simp [encDoc, h] at he
    | ok body => simp [encDoc, h] at he; exact ⟨body, he.symm⟩
  | .varrayBytes data, bytes, _, he => by
    cases h : encByteElems 0 data with
    | error e => simp [encDoc, h] at he
    | ok body => simp [encDoc, h] at he; exact ⟨body, he.symm⟩
  | .vstruct fields, bytes, _, he => by
    cases h : getStructFields (fields.map (fun f => (f.1, f.2.1, f.2.2.1))) with
    | error e => simp [encDoc, h] at he
    | ok infos =>
      cases h2 : encFieldsAux infos fields with
      | error e => simp [encDoc, h, h2] at he
      | ok body => simp [encDoc, h, h2] at he; exact ⟨body, he.symm⟩
  | .vbinary sub data, bytes, _, he => by
    cases h : encUintElem kindKey UIntKind.u8 sub false with
    | error e => simp [encDoc, h] at he
    | ok kindElem =>
      simp [encDoc, h] at he
      exact ⟨_, he.symm⟩
  | .vregex pat opts, bytes, _, he => by
    simp [encDoc] at he
    exact ⟨_, he.symm⟩
  | .vjs code none, bytes, _, he => by
    simp [encDoc] at he
    exact ⟨_, he.symm⟩
  | .vjs code (some s), bytes, _, he => by
    cases h : encElem scopeKey s false with
    | error e => simp [encDoc, h] at he
    | ok scopeElem =>
      simp [encDoc, h] at he
      exact ⟨_, he.symm⟩
  | .vundefined, bytes, _, he => by
    simp [encDoc] at he
    exact ⟨[], he.symm⟩

/-- addDoc is fatal on every value outside the accepted top-level kinds. -/
theorem encDocNotOk : (v : BVal) → docKindOK v = false → isOkE (encDoc v) = false
  | .vgetter g, h => by
    have ih := encDocNotOk g (by simpa [docKindOK] using h)
    simpa [encDoc] using ih
  | .vptr p, h => by
    have ih := encDocNotOk p (by simpa [docKindOK] using h)
    simpa [encDoc] using ih
  | .viface (.vgetter g), h => by
    have ih := encDocNotOk (.vgetter g) (by simpa [docKindOK] using h)
    simpa [encDoc] using ih
  | .viface .vnull, _ => by simp [encDoc, isOkE]
  | .viface (.vbool b), _ => by simp [encDoc, isOkE]
  | .viface (.vint t v), _ => by simp [encDoc, isOkE]
  | .viface (.vuint k u), _ => by simp [encDoc, isOkE]
  | .viface (.vfloat bits), _ => by simp [encDoc, isOkE]
  | .viface (.vstr s), _ => by simp [encDoc, isOkE]
  | .viface (.vobjectId s), _ => by simp [encDoc, isOkE]
  | .viface (.vsymbol s), _ => by simp [encDoc, isOkE]
  | .viface (.vbinary sub d), _ => by simp [encDoc, isOkE]
  | .viface (.vregex p o), _ => by simp [encDoc, isOkE]
  | .viface (.vjs c sc), _ => by simp [encDoc, isOkE]
  | .viface (.vraw k d), _ => by simp [encDoc, isOkE]
  | .viface .vundefined, _ => by simp [encDoc, isOkE]
  | .viface (.vbytes d), _ => by simp [encDoc, isOkE]
  | .viface (.vmap entries), _ => by simp [encDoc, isOkE]
  | .viface (.vdocSlice entries), _ => by simp [encDoc, isOkE]
  | .viface (.vslice elems), _ => by simp [encDoc, isOkE]
  | .viface (.varray elems), _ => by simp [encDoc, isOkE]
  | .viface (.varrayBytes d), _ => by simp [encDoc, isOkE]
  | .viface (.vstruct fields), _ => by simp [encDoc, isOkE]
  | .viface (.vptr p), _ => by simp [encDoc, isOkE]
  | .viface (.viface i), _ => by simp [encDoc, isOkE]
  | .vnull, _ => by simp [encDoc, isOkE]
  | .vbool b, _ => by simp [encDoc, isOkE]
  | .vint t v, _ => by simp [encDoc, isOkE]
  | .vuint k u, _ => by simp [encDoc, isOkE]
  | .vfloat bits, _ => by simp [encDoc, isOkE]
  | .vstr s, _ => by simp [encDoc, isOkE]
  | .vobjectId s, _ => by simp [encDoc, isOkE]
  | .vsymbol s, _ => by simp [encDoc, isOkE]
  | .vraw k d, h => by
    simp only [docKindOK, decide_eq_false_iff_not] at h
    simp [encDoc, isOkE, if_neg h]
  | .vmap entries, h => by simp [docKindOK] at h
  | .vdocSlice entries, h => by simp [docKindOK] at h
  | .vslice elems, h => by simp [docKindOK] at h
  | .varray elems, h => by simp [docKindOK] at h
  | .vbytes data, h => by simp [docKindOK] at h
  | .varrayBytes data, h => by simp [docKindOK] at h
  | .vstruct fields, h => by simp [docKindOK] at h
  | .vbinary sub data, h => by simp [docKindOK] at h
  | .vregex pat opts, h => by simp [docKindOK] at h
  | .vjs code scope, h => by simp [docKindOK] at h
  | .vundefined, h => by simp [docKindOK] at h

/-- C1 counterexample: a slice that is neither a mapping, nor a structure, nor
an ordered sequence of name/value pairs (a D value) is nevertheless accepted by
Marshal, which produces the index-keyed document bytes rather than a fatal
error. -/
theorem C1_slice_accepted_cex :
    marshal (BVal.vslice [BVal.vbool true]) = Except.ok [9, 0, 0, 0, 8, 48, 0, 1, 0] := rfl

/-- C1 (amended): Marshal accepts as top-level value, after Getter replacement
and pointer unwrapping, a mapping, a structure (including the library struct
types Binary, RegEx, JS and undefined), any slice or array, or a Raw of kind
0x03/0x00; for every other top-level value it returns a fatal error rather than
producing bytes. -/
theorem C1_marshal_top_level :
    ∀ v : BVal, docKindOK v = false → isOkE (marshal v) = false :=
  fun v h => encDocNotOk v h

/-- C1 witness: a plain bool at top level is rejected. -/
theorem C1_marshal_top_level_witness :
    docKindOK (BVal.vbool true) = false ∧ isOkE (marshal (BVal.vbool true)) = false :=
  ⟨rfl, C1_marshal_top_level (BVal.vbool true) rfl⟩

/-- C2 counterexample: a Raw value of kind 0x03 is spliced verbatim, so the
document Marshal emits for it carries no valid length prefix and does not end
in 0x00. -/
theorem C2_raw_splice_cex :
    marshal (BVal.vraw 3 [1, 2, 3]) = Except.ok [1, 2, 3] ∧
    List.getLast? [1, 2, 3] ≠ some 0 :=
  ⟨rfl, by decide⟩

/-- C2 (amended): for every document emitted by the encoder from a value free
of Raw pass-through, the first four bytes read as a little-endian unsigned
32-bit value equal the document's total byte length modulo 2^32 - hence, read
as a little-endian int32, equal the length exactly whenever the length is
below 2^31 - and the last byte is 0x00.  Embedded documents are the encDoc
encodings of the corresponding subvalues, so the quantification over values
covers them. -/
theorem C2_doc_length_terminator :
    ∀ (v : BVal) (bytes : List Nat), rawFree v = true → encDoc v = Except.ok bytes →
      readU32 bytes = bytes.length % 4294967296 ∧
      (bytes.length < 2147483648 → readInt32LE bytes = (bytes.length : Int)) ∧
      bytes.getLast? = some 0 := by
  intro v bytes hr he
  obtain ⟨body, rfl⟩ := encDocShape v bytes hr he
  exact wrapDoc_shape body

/-- C2 witness: the empty map encodes to the five-byte empty document, whose
prefix reads back as its length and whose last byte is zero. -/
theorem C2_doc_length_terminator_witness :
    rawFree (BVal.vmap []) = true ∧
    encDoc (BVal.vmap []) = Except.ok [5, 0, 0, 0, 0] ∧
    readU32 [5, 0, 0, 0, 0] = [5, 0, 0, 0, 0].length % 4294967296 ∧
    ([5, 0, 0, 0, 0].length < 2147483648 →
      readInt32LE [5, 0, 0, 0, 0] = ([5, 0, 0, 0, 0].length : Int)) ∧
    List.getLast? [5, 0, 0, 0, 0] = some 0 := by
  have h := C2_doc_length_terminator (BVal.vmap []) [5, 0, 0, 0, 0] rfl rfl
  exact ⟨rfl, rfl, h.1, h.2.1, h.2.2⟩

/-- C3: the document with the single key "x" (byte 0x78) bound to boolean true
marshals to exactly the nine bytes 09 00 00 00 08 78 00 01 00. -/
theorem C3_single_bool_bytes :
    marshal (BVal.vmap [([120], BVal.vbool true)]) =
      Except.ok [9, 0, 0, 0, 8, 120, 0, 1, 0] := rfl

/-- C4: an int64 element under the short flag is emitted as kind 0x10 exactly
when the value lies in [MinInt32, MaxInt32] and as kind 0x12 otherwise; in
particular the structure field `Size int64 "size/s"` emits kind 0x10 for value
42 and kind 0x12 for value 2^33. -/
theorem C4_short_int64 :
    (∀ (name : List Nat) (v : Int),
      encElem name (BVal.vint (IntType.plain IntKind.i64) v) true =
        Except.ok (if -2147483648 ≤ v ∧ v ≤ 2147483647
          then elemName 16 name ++ le32 (toU32 v)
          else elemName 18 name ++ le64 (toU64 v))) ∧
    marshal (BVal.vstruct [([83, 105, 122, 101], [], [115, 105, 122, 101, 47, 115],
        BVal.vint (IntType.plain IntKind.i64) 42)]) =
      Except.ok [15, 0, 0, 0, 16, 115, 105, 122, 101, 0, 42, 0, 0, 0, 0] ∧
    marshal (BVal.vstruct [([83, 105, 122, 101], [], [115, 105, 122, 101, 47, 115],
        BVal.vint (IntType.plain IntKind.i64) 8589934592)]) =
      Except.ok [19, 0, 0, 0, 18, 115, 105, 122, 101, 0, 0, 0, 0, 0, 2, 0, 0, 0, 0] := by
  refine ⟨?_, rfl, rfl⟩
  intro name v
  simp only [encElem, IntType.reflectNum, IntKind.reflectNum]
  norm_num
  split <;> rfl

/-- C5: a value of declared type plain int always emits kind 0x10 with the
value truncated to its low 32 bits, with or without the short flag and with no
error; the kind test classifies reflect.Int (2) as at most reflect.Int32 (5). -/
theorem C5_plain_int_int32 :
    (∀ (name : List Nat) (v : Int) (short : Bool),
      encElem name (BVal.vint (IntType.plain IntKind.i) v) short =
        Except.ok (elemName 16 name ++ le32 (toU32 v))) ∧
    (∀ v : Int, (toU32 v : Int) = v % 4294967296) ∧
    IntKind.reflectNum IntKind.i ≤ 5 := by
  refine ⟨fun name v short => rfl, fun v => ?_, by norm_num [IntKind.reflectNum]⟩
  simp only [toU32]
  exact Int.toNat_of_nonneg (Int.emod_nonneg v (by norm_num))

/-- C6: in structure emission every field whose derived info carries the
conditional flag and whose value is zero is omitted, and every other field is
emitted under its key with its short flag, in order; in particular the
structure {Name string "name"; Age int "age/c"} with values {"Ada", 0}
marshals to a document holding only the "name" element. -/
theorem C6_conditional_fields :
    (∀ (infos : List FieldInfo) (fs : List StructFieldV), infos.length ≤ fs.length →
      encFieldsAux infos fs = encConcat ((infos.zip fs).filterMap
        (fun p => if p.1.Conditional ∧ isZero (fieldVal p.2) then none
          else some (encElem p.1.Key (fieldVal p.2) p.1.Short)))) ∧
    marshal (BVal.vstruct [([78, 97, 109, 101], [], [110, 97, 109, 101], BVal.vstr [65, 100, 97]),
        ([65, 103, 101], [], [97, 103, 101, 47, 99], BVal.vint (IntType.plain IntKind.i) 0)]) =
      Except.ok [19, 0, 0, 0, 2, 110, 97, 109, 101, 0, 4, 0, 0, 0, 65, 100, 97, 0, 0] := by
  refine ⟨?_, rfl⟩
  intro infos
  induction infos with
  | nil => intro fs h; simp [encFieldsAux, encConcat]
  | cons i is ih =>
    intro fs h
    cases fs with
    | nil => simp at h
    | cons f gs =>
      obtain ⟨n2, p2, t2, v2⟩ := f
      simp only [List.length_cons, Nat.succ_le_succ_iff] at h
      have ih2 := ih gs h
      simp only [fieldVal] at ih2 ⊢
      by_cases hc : i.Conditional = true ∧ isZero v2 = true
      · simp [encFieldsAux, hc, ih2]
      · simp only [encFieldsAux, List.zip_cons_cons, List.filterMap_cons, if_neg hc]
        rw [ih2]
        cases h2 : encElem i.Key v2 i.Short <;> simp [encConcat, h2]

/-- C6 witness: a single conditional int field with value zero against its
info entry. -/
theorem C6_conditional_fields_witness :
    ([⟨[107], 0, true, false⟩] : List FieldInfo).length ≤
      ([([107], [], [], BVal.vint (IntType.plain IntKind.i) 0)] : List StructFieldV).length ∧
    encFieldsAux [⟨[107], 0, true, false⟩]
        [([107], [], [], BVal.vint (IntType.plain IntKind.i) 0)] =
      encConcat ((([⟨[107], 0, true, false⟩] : List FieldInfo).zip
          ([([107], [], [], BVal.vint (IntType.plain IntKind.i) 0)] : List StructFieldV)).filterMap
        (fun p => if p.1.Conditional ∧ isZero (fieldVal p.2) then none
          else some (encElem p.1.Key (fieldVal p.2) p.1.Short))) :=
  ⟨by norm_num, C6_conditional_fields.1 _ _ (by norm_num)⟩

/-- C7: a Binary element of subtype 0x02 is written in the legacy double-length
form int32(len+4), 0x02, int32(len), bytes, and every other subtype in the
form int32(len), subtype, bytes. -/
theorem C7_binary_forms :
    ∀ (name : List Nat) (sub : Nat) (data : List Nat) (short : Bool),
      encElem name (BVal.vbinary sub data) short =
        Except.ok (elemName 5 name ++
          (if sub = 2 then le32 (data.length + 4) ++ [sub] ++ le32 data.length ++ data
           else le32 data.length ++ [sub] ++ data)) :=
  fun _name _sub _data _short => rfl

/-- C8: for every int32 value s, NewObjectIdSeconds s is twelve bytes whose
tail [4..12) is all zero and whose Timestamp accessor recovers s. -/
theorem C8_objectid_seconds :
    ∀ s : Int, -2147483648 ≤ s → s ≤ 2147483647 →
      timestampOf (newObjectIdSeconds s) = Except.ok s ∧
      (newObjectIdSeconds s).drop 4 = [0, 0, 0, 0, 0, 0, 0, 0] := by
  intro s h1 h2
  constructor
  · simp only [newObjectIdSeconds, beBytes4, toU32, timestampOf, beRead4, asInt32,
      List.cons_append, List.nil_append, List.length_cons, List.length_nil]
    norm_num
    omega
  · simp [newObjectIdSeconds, beBytes4]

/-- C8 witness: seconds value 5. -/
theorem C8_objectid_seconds_witness :
    (-2147483648 ≤ (5 : Int)) ∧ ((5 : Int) ≤ 2147483647) ∧
    timestampOf (newObjectIdSeconds 5) = Except.ok 5 ∧
    (newObjectIdSeconds 5).drop 4 = [0, 0, 0, 0, 0, 0, 0, 0] := by
  have h := C8_objectid_seconds 5 (by norm_num) (by norm_num)
  exact ⟨by norm_num, by norm_num, h.1, h.2⟩

/-- C9: for two consecutive NewObjectId calls (the second threading the counter
state returned by the first, with no interleaving call), the Counter of the
second id equals the Counter of the first plus one modulo 2^24, whatever the
timestamps, machine ids and process ids. -/
theorem C9_counter_consecutive :
    ∀ (t1 t2 : Nat) (m1 m2 : List Nat) (p1 p2 c : Nat) (c1 : Int),
      counterOf (newObjectId t1 m1 p1 c).1 = Except.ok c1 →
      counterOf (newObjectId t2 m2 p2 (newObjectId t1 m1 p1 c).2).1 =
        Except.ok ((c1 + 1) % 16777216) := by
  intro t1 t2 m1 m2 p1 p2 c c1 h
  simp only [newObjectId, counterOf, beBytes4, List.cons_append, List.nil_append,
    List.length_cons, List.length_nil, List.getD] at h ⊢
  norm_num at h ⊢
  omega

/-- C9 witness: starting from counter state 0, the first id has counter 1 and
the second has counter 2. -/
theorem C9_counter_consecutive_witness :
    counterOf (newObjectId 0 [] 0 0).1 = Except.ok 1 ∧
    counterOf (newObjectId 0 [] 0 (newObjectId 0 [] 0 0).2).1 =
      Except.ok ((1 + 1) % 16777216) :=
  ⟨rfl, C9_counter_consecutive 0 0 [] [] 0 0 0 1 rfl⟩

/-- C10: isZero is false on every float and every struct value, so a
conditional field of float or struct type is never skipped: the float's element
is always emitted, and a struct field always proceeds to its element emission. -/
theorem C10_float_struct_emitted :
    (∀ bits, isZero (BVal.vfloat bits) = false) ∧
    (∀ fields, isZero (BVal.vstruct fields) = false) ∧
    (∀ (info : FieldInfo) (infos : List FieldInfo) (n p t : List Nat) (bits : Nat)
        (fs : List StructFieldV),
      encFieldsAux (info :: infos) ((n, p, t, BVal.vfloat bits) :: fs) =
        match encFieldsAux infos fs with
        | .ok rest => .ok ((elemName 1 info.Key ++ le64 bits) ++ rest)
        | .error e => .error e) ∧
    (∀ (info : FieldInfo) (infos : List FieldInfo) (n p t : List Nat)
        (sf : List StructFieldV) (fs : List StructFieldV),
      encFieldsAux (info :: infos) ((n, p, t, BVal.vstruct sf) :: fs) =
        match encElem info.Key (BVal.vstruct sf) info.Short with
        | .error e => .error e
        | .ok b =>
          match encFieldsAux infos fs with
          | .error e => .error e
          | .ok rest => .ok (b ++ rest)) := by
  refine ⟨fun bits => rfl, fun fields => rfl, ?_, ?_⟩
  · intro info infos n p t bits fs
    cases h : encFieldsAux infos fs <;> simp [encFieldsAux, isZero, encElem, h]
  · intro info infos n p t sf fs
    simp [encFieldsAux, isZero]
